import Mathlib

/-!
Verification of the neuroconv-kpms repository against its specification.

The development shallowly embeds the two relevant source files:

* `src/neuroconv/datainterfaces/behavior/keypointmoseq/kpms_utils.py`
  (the changepoint extractor `dense_syllables_to_events`), and
* `src/neuroconv/tools/neo/neo.py`
  (the icephys unit resolver, electrode/device registrar and recording
  assembler).

Python lists become Lean `List`s, numpy floats become `ℚ` (all arithmetic
relevant to the claims is exact), dictionaries become structures with
`Option` fields for possibly-missing keys, raised exceptions become an
`Option String` error channel threaded together with the mutated state
(Python mutations performed before a raise remain visible, and the model
keeps them), and the global `warnings.warn` channel becomes an append-only
list of strings carried inside the container state.
-/

/-! ## Changepoint extractor, from kpms_utils.py

`dense_syllables_to_events(syllables)` is
`changepoints = np.where(syllables[1:] != syllables[:-1])[0]`
followed by `return changepoints, syllables[changepoints]`.
`np.where` on the elementwise comparison of `syllables[1:]` with
`syllables[:-1]` returns, in increasing order, those `j < len - 1` with
`syllables[j+1] != syllables[j]`; fancy indexing then picks
`syllables[j]` for each such `j`. -/

def dense_syllables_to_events (syllables : List Int) : List Nat × List Int :=
  let changepoints :=
    (List.range (syllables.length - 1)).filter
      (fun j => syllables.getD (j + 1) 0 ≠ syllables.getD j 0)
  (changepoints, changepoints.map (fun j => syllables.getD j 0))

/-- Spec-side count: the number of positions `i` (taken from `1` to
`length - 1`) with `labels[i] ≠ labels[i-1]`, phrased through the list of
adjacent pairs rather than through the extractor's own index arithmetic. -/
def adjacentDiffCount (labels : List Int) : Nat :=
  (labels.zip labels.tail).countP (fun p => p.1 ≠ p.2)

/-! ## Unit resolver, from neo.py

`get_conversion_from_unit` is a closed `if/elif` chain over the ten
case-sensitive strings `pA pV nA nV uA uV mA mV A V`; any other string
falls to the `else` branch which warns and returns `1.0`.  The boolean
component records whether the warning fired. -/

def get_conversion_from_unit (unit : String) : ℚ × Bool :=
  if unit = "pA" ∨ unit = "pV" then (1 / 10 ^ 12, false)
  else if unit = "nA" ∨ unit = "nV" then (1 / 10 ^ 9, false)
  else if unit = "uA" ∨ unit = "uV" then (1 / 10 ^ 6, false)
  else if unit = "mA" ∨ unit = "mV" then (1 / 10 ^ 3, false)
  else if unit = "A" ∨ unit = "V" then (1, false)
  else (1, true)

/-- Spec-side table: the closed set of prefix+base-unit strings
(pico/nano/micro/milli/unit, for ampere and volt) named by the claim. -/
def unitTable : List String :=
  (["p", "n", "u", "m", ""].map (fun p => p ++ "A")) ++
    (["p", "n", "u", "m", ""].map (fun p => p ++ "V"))

/-! ## Decimal representation helpers

The electrode registrar synthesises names `icephys_electrode_<i>` with
Python decimal formatting, embedded via `Nat.repr`.  To count those
electrodes we need `Nat.repr` to be injective, which we prove through an
explicit evaluation function on digit lists. -/

def decDigits (n : Nat) : List Char :=
  if h : n / 10 = 0 then [Nat.digitChar (n % 10)]
  else decDigits (n / 10) ++ [Nat.digitChar (n % 10)]
decreasing_by
  exact Nat.div_lt_self (Nat.pos_of_ne_zero (fun h0 => h (h0 ▸ Nat.zero_div 10))) (by decide)

theorem toDigitsCore_eq_decDigits :
    ∀ (fuel n : Nat) (acc : List Char), n < fuel →
      Nat.toDigitsCore 10 fuel n acc = decDigits n ++ acc := by
  intro fuel
  induction fuel with
  | zero => intro n acc h; exact absurd h (Nat.not_lt_zero n)
  | succ fuel ih =>
    intro n acc h
    rw [Nat.toDigitsCore]
    by_cases hz : n / 10 = 0
    · simp only [hz, if_pos]
      rw [decDigits, dif_pos hz]
      rfl
    · simp only [hz, if_neg, ite_false]
      have hn : 0 < n := Nat.pos_of_ne_zero (fun h0 => hz (h0 ▸ Nat.zero_div 10))
      have hlt : n / 10 < fuel :=
        Nat.lt_of_lt_of_le (Nat.div_lt_self hn (by decide)) (Nat.lt_succ_iff.mp h)
      rw [ih (n / 10) (Nat.digitChar (n % 10) :: acc) hlt]
      conv_rhs => rw [decDigits]
      rw [dif_neg hz]
      simp

def digitsVal (l : List Char) : Nat :=
  l.foldl (fun a c => 10 * a + (c.toNat - 48)) 0

theorem digitsVal_append (l : List Char) (c : Char) :
    digitsVal (l ++ [c]) = 10 * digitsVal l + (c.toNat - 48) := by
  simp [digitsVal, List.foldl_append]

theorem digitChar_val_eq (d : Nat) (h : d < 10) : (Nat.digitChar d).toNat - 48 = d := by
  revert h
  revert d
  decide

theorem digitsVal_decDigits (n : Nat) : digitsVal (decDigits n) = n := by
  induction n using Nat.strong_induction_on with
  | _ n ih =>
    by_cases hz : n / 10 = 0
    · rw [decDigits, dif_pos hz]
      simp only [digitsVal, List.foldl]
      rw [digitChar_val_eq _ (Nat.mod_lt n (by decide))]
      omega
    · rw [decDigits, dif_neg hz]
      have hn : 0 < n := Nat.pos_of_ne_zero (fun h0 => hz (h0 ▸ Nat.zero_div 10))
      have hlt : n / 10 < n := Nat.div_lt_self hn (by decide)
      rw [digitsVal_append, ih (n / 10) hlt, digitChar_val_eq _ (Nat.mod_lt n (by decide))]
      omega

theorem natRepr_data (n : Nat) : (Nat.repr n).data = decDigits n := by
  show (Nat.toDigits 10 n).asString.data = decDigits n
  rw [Nat.toDigits, toDigitsCore_eq_decDigits (n + 1) n [] (Nat.lt_succ_self n)]
  simp [List.asString]

theorem natRepr_injective : Function.Injective Nat.repr := by
  intro m n h
  have hd : decDigits m = decDigits n := by
    rw [← natRepr_data, ← natRepr_data, h]
  have := congrArg digitsVal hd
  rwa [digitsVal_decDigits, digitsVal_decDigits] at this

theorem string_append_right_injective (p : String) :
    Function.Injective (fun s => p ++ s) := by
  intro a b h
  have hd : (p ++ a).data = (p ++ b).data := congrArg String.data h
  rw [String.data_append, String.data_append] at hd
  exact String.ext (List.append_cancel_left hd)

/-! ## Data model for the icephys assembler, from neo.py

The Neo reader is embedded as a record of the reader fields and methods
that `neo.py` consults: `header["nb_segment"][0]`,
`_axon_info["fFileVersionNumber"]`, `read_raw_protocol()` (its first
component's length, its per-segment/per-channel traces and its
per-channel units as used at lines 327 and 333), the signal-channel
units/gains, per-segment start times, the sampling rate, raw chunks and
the file name.  The NWB container is embedded as the five tables the
functions touch plus the accumulated warning channel; `pynwb`'s
`add_intracellular_recording` appends one row and returns its index
(the new length minus one), and the two grouping tables behave the same
way, which is how the container library is modelled below. -/

structure SignalChannel where
  unit : String
  gain : ℚ
deriving DecidableEq, Repr

structure NeoReader where
  nb_segment : Nat
  fFileVersionNumber : ℚ
  n_protocol_traces : Nat
  protocol_trace : Nat → Nat → List ℚ
  protocol_unit : Nat → String
  signal_channels : List SignalChannel
  get_signal_t_start : Nat → ℚ
  get_signal_sampling_rate : ℚ
  get_analogsignal_chunk : Nat → Nat → List ℚ
  filename : String

structure Device where
  name : String
deriving DecidableEq, Repr

structure Electrode where
  name : String
  description : String
  deviceName : String
deriving DecidableEq, Repr

/-- A response series.  The source also stores `gain=np.nan` on every
record while folding the channel gain into `conversion`; the NaN
sentinel is constant and carries no information, so it is not a field
here. -/
structure ResponseRecord where
  name : String
  experimentType : String
  description : String
  electrodeName : String
  data : List ℚ
  compression : String
  starting_time : ℚ
  rate : ℚ
  conversion : ℚ
deriving DecidableEq, Repr

structure StimulusRecord where
  name : String
  description : String
  electrodeName : String
  data : List ℚ
  rate : ℚ
  starting_time : ℚ
  conversion : ℚ
deriving DecidableEq, Repr

structure ICRow where
  electrodeName : String
  response : ResponseRecord
  stimulus : Option StimulusRecord
deriving DecidableEq, Repr

structure SequentialRecording where
  simultaneous_recordings : List Nat
  stimulus_type : String
deriving DecidableEq, Repr

structure NWBFile where
  devices : List Device
  icephys_electrodes : List Electrode
  intracellular_recordings : List ICRow
  icephys_simultaneous_recordings : List (List Nat)
  icephys_sequential_recordings : List SequentialRecording
  warnings : List String
deriving DecidableEq, Repr

/-! Metadata mirrors the nested dictionaries consumed by `neo.py`:
possibly-absent keys are `Option` fields, and an electrode-list entry
that is not a dictionary (rejected by the assert at line 187) is the
`nonDict` constructor. -/

structure ElectrodeMeta where
  name : Option String
  description : Option String
  device_name : Option String
deriving DecidableEq, Repr

inductive ElectrodeEntry where
  | dictEntry : ElectrodeMeta → ElectrodeEntry
  | nonDict : ElectrodeEntry
deriving DecidableEq, Repr

structure SessionMeta where
  relative_session_start_time : Option ℚ
  stimulus_type : Option String
deriving DecidableEq, Repr

structure IcephysMeta where
  Device : Option (List String)
  Electrodes : Option (List ElectrodeEntry)
  Sessions : Option (List SessionMeta)
deriving DecidableEq, Repr

structure Metadata where
  Icephys : Option IcephysMeta
  Ecephys : Option IcephysMeta
deriving DecidableEq, Repr

/-- Modelled from the spec: `add_device_from_metadata` is imported by
`neo.py` from `neuroconv.tools.nwb_helpers`, whose source is not under
src/.  Per the spec (section 4.3, Electrode/Device Registrar): "If
container has zero devices, create exactly one default device from the
supplied metadata or a hard-coded fallback name".  For modality
"Icephys" we model it as creating one device named after
`metadata["Icephys"]["Device"][0]` when that entry exists, and a
fallback name otherwise, skipping creation when a device of that name
already exists. -/
def deviceNameFromMetadata (metadata : Option Metadata) : String :=
  match metadata with
  | some m =>
    match m.Icephys with
    | some ic =>
      match ic.Device with
      | some (d :: _) => d
      | some [] => "Device"
      | none => "Device"
    | none => "Device"
  | none => "Device"

def add_device_from_metadata (st : NWBFile) (metadata : Option Metadata) : NWBFile :=
  if (st.devices.map Device.name).contains (deviceNameFromMetadata metadata) then st
  else { st with devices := st.devices ++ [{ name := deviceNameFromMetadata metadata }] }

/-- The `defaults` list built at lines 175-182: one entry per signal
channel, named with Python decimal formatting, bound to the first
device.  (The source's `[i.name for i in nwbfile.devices.values()][0]`
is only evaluated after the zero-device branch has ensured a device
exists, so the `headD` default is unreachable there.) -/
def defaultElectrodeMeta (neo_reader : NeoReader) (st : NWBFile) : List ElectrodeMeta :=
  (List.range neo_reader.signal_channels.length).map (fun elec_id =>
    { name := some ("icephys_electrode_" ++ Nat.repr elec_id)
      description := some "no description"
      device_name := some ((st.devices.map Device.name).headD "") })

/-- Lines 195-201: when the electrode's requested device is absent, call
`add_device_from_metadata` with a metadata dictionary whose device list
sits (as written at line 196) under the "Ecephys" key, then warn. -/
def ensureDeviceFor (device_name : String) (st : NWBFile) : NWBFile :=
  if (st.devices.map Device.name).contains device_name then st
  else
    let stD := add_device_from_metadata st
      (some { Icephys := none,
              Ecephys := some { Device := some [device_name], Electrodes := none,
                                Sessions := none } })
    { stD with warnings := stD.warnings ++
        ["Device " ++ device_name ++
          " not detected in attempted link to icephys electrode. Automatically generating."] }

/-- The per-entry creation loop at lines 192-207.  Each iteration first
evaluates `defaults[0]` (Python evaluates the default argument of
`dict.get` eagerly, so an empty `defaults` list raises as soon as the
loop body runs); a name already present is skipped; a missing device is
auto-created before the `nwbfile.devices[...]` lookup, which raises when
the name is still absent. -/
def createElectrodes (defaults : List ElectrodeMeta) :
    List ElectrodeMeta → NWBFile → NWBFile × Option String
  | [], st => (st, none)
  | elec :: rest, st =>
    match defaults.head? with
    | none => (st, some "IndexError: list index out of range")
    | some d0 =>
      if (st.icephys_electrodes.map Electrode.name).contains (elec.name.getD (d0.name.getD "")) then
        createElectrodes defaults rest st
      else
        let device_name := elec.device_name.getD (d0.device_name.getD "")
        let st1 := ensureDeviceFor device_name st
        if (st1.devices.map Device.name).contains device_name then
          createElectrodes defaults rest
            { st1 with icephys_electrodes := st1.icephys_electrodes ++
                [{ name := elec.name.getD (d0.name.getD "")
                   description := elec.description.getD (d0.description.getD "")
                   deviceName := device_name }] }
        else
          (st1, some ("KeyError: " ++ device_name))

/-- The electrode list consumed by the loop: caller-supplied
`metadata["Icephys"]["Electrodes"]` when present and nonempty, the
synthesized defaults otherwise. -/
def electrodeEntries (metadata : Option Metadata) (defaults : List ElectrodeMeta) :
    List ElectrodeEntry :=
  match metadata with
  | some m =>
    match m.Icephys with
    | some ic =>
      match ic.Electrodes with
      | some es => if es.length = 0 then defaults.map ElectrodeEntry.dictEntry else es
      | none => defaults.map ElectrodeEntry.dictEntry
    | none => defaults.map ElectrodeEntry.dictEntry
  | none => defaults.map ElectrodeEntry.dictEntry

def isNonDict : ElectrodeEntry → Bool
  | ElectrodeEntry.nonDict => true
  | ElectrodeEntry.dictEntry _ => false

def entryMeta : ElectrodeEntry → Option ElectrodeMeta
  | ElectrodeEntry.nonDict => none
  | ElectrodeEntry.dictEntry m => some m

/-- `add_icephys_electrode` (lines 139-207): ensure at least one device
(warning plus `add_device_from_metadata` when the container has none),
build the per-channel defaults, select the electrode metadata list,
reject non-dictionary entries, then run the creation loop. -/
def add_icephys_electrode (neo_reader : NeoReader) (st : NWBFile) (metadata : Option Metadata) :
    NWBFile × Option String :=
  let st :=
    if st.devices.length = 0 then
      add_device_from_metadata
        { st with warnings := st.warnings ++
            ["When adding Icephys Electrode, no Devices were found on nwbfile. Creating a Device now..."] }
        metadata
    else st
  let defaults := defaultElectrodeMeta neo_reader st
  let entries := electrodeEntries metadata defaults
  if entries.any isNonDict then
    (st, some "AssertionError: Expected metadata to hold a list of dictionaries")
  else
    createElectrodes defaults (entries.filterMap entryMeta) st

/-- The zero-device guard at lines 141-146 of `add_icephys_electrode`,
factored out: when the container holds no devices, warn and create one
from the metadata. -/
def ensureAnyDevice (st : NWBFile) (metadata : Option Metadata) : NWBFile :=
  if st.devices.length = 0 then
    add_device_from_metadata
      { st with warnings := st.warnings ++
          ["When adding Icephys Electrode, no Devices were found on nwbfile. Creating a Device now..."] }
      metadata
  else st

/-! ## Recording assembler, from neo.py lines 210-352 -/

/-- The metadata lookups at lines 288-289:
`metadata["Icephys"]["Sessions"][sessions_offset]` must exist and supply
both `relative_session_start_time` and `stimulus_type`; any missing
layer raises in Python, modelled as `none`. -/
def sessionLookup (metadata : Option Metadata) (i : Nat) : Option (ℚ × String) := do
  let m ← metadata
  let ic ← m.Icephys
  let ss ← ic.Sessions
  let s ← ss.get? i
  let r ← s.relative_session_start_time
  let t ← s.stimulus_type
  pure (r, t)

/-- Python's `:02` format: zero-pad to two characters. -/
def pad2 (n : Nat) : String :=
  if n < 10 then "0" ++ Nat.repr n else Nat.repr n

def unitWarning : String :=
  "No valid units found for traces in the current file. Gain is set to 1, but this might be wrong."

def versionWarning (neo_reader : NeoReader) : String :=
  "Protocol section is only present in ABF2 files. " ++ neo_reader.filename ++
    " has an earlier version. Saving experiment as i_zero..."

def noCommandWarning (neo_reader : NeoReader) : String :=
  "No command data found by neo reader in file " ++ neo_reader.filename ++
    ". Saving experiment as i_zero..."

/-- One iteration of the electrode loop (lines 296-345): skip listed
electrode indices, build the response series (unit-resolved conversion
times channel gain, possibly warning), pair it with a stimulus series
exactly when the experiment type is not the no-stimulus variant, append
the row to the intracellular-recordings table and record its index. -/
def buildResponse (neo_reader : NeoReader) (etype : String) (rel_start : ℚ)
    (sess_stim : String) (sim_offset : Nat) (compression : String)
    (si ei : Nat) (electrode : Electrode) : ResponseRecord :=
  { name := etype ++ "-response-" ++ pad2 (si + 1 + sim_offset) ++ "-ch-" ++ Nat.repr ei
    experimentType := etype
    description := "Response to: " ++ sess_stim
    electrodeName := electrode.name
    data := neo_reader.get_analogsignal_chunk si ei
    compression := compression
    starting_time := neo_reader.get_signal_t_start si + rel_start
    rate := neo_reader.get_signal_sampling_rate
    conversion :=
      (get_conversion_from_unit
          (((neo_reader.signal_channels.get? ei).map SignalChannel.unit).getD "")).1
        * ((neo_reader.signal_channels.get? ei).map SignalChannel.gain).getD 0 }

def buildStimulus (neo_reader : NeoReader) (rel_start : ℚ) (sess_stim : String)
    (sim_offset : Nat) (si ei : Nat) (electrode : Electrode) : StimulusRecord :=
  { name := "stimulus-" ++ pad2 (si + 1 + sim_offset) ++ "-ch-" ++ Nat.repr ei
    description := "Stim type: " ++ sess_stim
    electrodeName := electrode.name
    data := neo_reader.protocol_trace si ei
    rate := neo_reader.get_signal_sampling_rate
    starting_time := neo_reader.get_signal_t_start si + rel_start
    conversion := (get_conversion_from_unit (neo_reader.protocol_unit ei)).1 }

/-- The intracellular-recording row appended for one electrode of one
segment: response plus electrode, with a paired stimulus exactly when
the experiment type is not the no-stimulus variant. -/
def builtRow (neo_reader : NeoReader) (etype : String) (rel_start : ℚ)
    (sess_stim : String) (sim_offset : Nat) (compression : String)
    (si ei : Nat) (electrode : Electrode) : ICRow :=
  { electrodeName := electrode.name
    response := buildResponse neo_reader etype rel_start sess_stim sim_offset compression
      si ei electrode
    stimulus :=
      if etype ≠ "izero" then
        some (buildStimulus neo_reader rel_start sess_stim sim_offset si ei electrode)
      else none }

def addElectrodeRecording (neo_reader : NeoReader) (etype : String) (rel_start : ℚ)
    (sess_stim : String) (sim_offset : Nat) (skip_electrodes : List Nat) (compression : String)
    (si : Nat) (acc : NWBFile × List Nat) (p : Nat × Electrode) : NWBFile × List Nat :=
  let st := acc.1
  let recordings := acc.2
  let ei := p.1
  let electrode := p.2
  if skip_electrodes.contains ei then (st, recordings)
  else
    let rconv := get_conversion_from_unit
      (((neo_reader.signal_channels.get? ei).map SignalChannel.unit).getD "")
    let st := if rconv.2 then { st with warnings := st.warnings ++ [unitWarning] } else st
    if etype ≠ "izero" then
      let sconv := get_conversion_from_unit (neo_reader.protocol_unit ei)
      let st := if sconv.2 then { st with warnings := st.warnings ++ [unitWarning] } else st
      ({ st with intracellular_recordings := st.intracellular_recordings ++
          [builtRow neo_reader etype rel_start sess_stim sim_offset compression
            si ei electrode] },
        recordings ++ [st.intracellular_recordings.length])
    else
      ({ st with intracellular_recordings := st.intracellular_recordings ++
          [builtRow neo_reader etype rel_start sess_stim sim_offset compression
            si ei electrode] },
        recordings ++ [st.intracellular_recordings.length])

/-- One segment (lines 293-348 inner part): enumerate the electrodes,
truncated to the number of signal channels, and collect the row indices
appended for this segment. -/
def addSegmentRecordings (neo_reader : NeoReader) (etype : String) (rel_start : ℚ)
    (sess_stim : String) (sim_offset : Nat) (skip_electrodes : List Nat) (compression : String)
    (si : Nat) (st : NWBFile) : NWBFile × List Nat :=
  ((st.icephys_electrodes.take neo_reader.signal_channels.length).enum).foldl
    (addElectrodeRecording neo_reader etype rel_start sess_stim sim_offset skip_electrodes
      compression si)
    (st, [])

/-- The segment loop: after each segment, one simultaneous-recording
group holding that segment's row indices is appended, and its group
index collected. -/
def runSegments (neo_reader : NeoReader) (etype : String) (rel_start : ℚ)
    (sess_stim : String) (sim_offset : Nat) (skip_electrodes : List Nat) (compression : String) :
    Nat → NWBFile → NWBFile × List Nat
  | 0, st => (st, [])
  | Nat.succ n, st =>
    let prev := runSegments neo_reader etype rel_start sess_stim sim_offset skip_electrodes
      compression n st
    let r := addSegmentRecordings neo_reader etype rel_start sess_stim sim_offset
      skip_electrodes compression n prev.1
    ({ r.1 with icephys_simultaneous_recordings :=
        r.1.icephys_simultaneous_recordings ++ [r.2] },
      prev.2 ++ [r.1.icephys_simultaneous_recordings.length])

/-- `add_icephys_recordings` (lines 210-352): derive `n_commands` (forced
to zero with a warning for pre-ABF2 files), force the no-stimulus
experiment type with a warning when `n_commands` is zero and otherwise
assert `n_commands == n_segments`, assert the experiment type, ensure
electrodes exist, compute the three running offsets from the current
table sizes, read the per-session metadata entry, run every segment and
close one sequential-recording group tagged with the caller's
`stimulus_type` argument. -/
def electrodesWarning : String :=
  "When adding Icephys Recording, no Icephys Electrodes were found on nwbfile. Creating Electrodes now..."

/-- The part of `add_icephys_recordings` after `n_commands` has been
derived and the two possible downgrade warnings emitted (lines 252-352):
the two asserts, the electrode auto-creation, the offset computation,
the metadata lookup, the segment loop and the closing
sequential-recording group. -/
def add_icephys_recordings_core (neo_reader : NeoReader) (st : NWBFile)
    (metadata : Option Metadata) (etype : String) (stimulus_type : String)
    (skip_electrodes : List Nat) (compression : String)
    (n_segments n_commands : Nat) : NWBFile × Option String :=
  if n_commands ≠ 0 ∧ n_commands ≠ n_segments then
    (st, some ("AssertionError: File contains inconsistent number of segments (" ++
      Nat.repr n_segments ++ ") and commands (" ++ Nat.repr n_commands ++ ")"))
  else if ¬ (etype = "voltage_clamp" ∨ etype = "current_clamp" ∨ etype = "izero") then
    (st, some "AssertionError: icephys_experiment_type should be voltage_clamp, current_clamp or izero")
  else
    match (if st.icephys_electrodes.length = 0 then
            add_icephys_electrode neo_reader
              { st with warnings := st.warnings ++ [electrodesWarning] } metadata
          else (st, none)) with
    | (st1, some e) => (st1, some e)
    | (st1, none) =>
      match sessionLookup metadata st1.icephys_sequential_recordings.length with
      | none => (st1, some "KeyError: metadata Icephys Sessions")
      | some rt =>
        match runSegments neo_reader etype rt.1 rt.2
            st1.icephys_simultaneous_recordings.length skip_electrodes compression
            n_segments st1 with
        | (st2, simGroups) =>
          ({ st2 with icephys_sequential_recordings := st2.icephys_sequential_recordings ++
              [{ simultaneous_recordings := simGroups, stimulus_type := stimulus_type }] },
            none)

def add_icephys_recordings (neo_reader : NeoReader) (st : NWBFile) (metadata : Option Metadata)
    (icephys_experiment_type : String) (stimulus_type : String)
    (skip_electrodes : List Nat) (compression : String) : NWBFile × Option String :=
  let n_segments := neo_reader.nb_segment
  let n_commands := if neo_reader.fFileVersionNumber < 2 then 0 else neo_reader.n_protocol_traces
  let st :=
    if neo_reader.fFileVersionNumber < 2 then
      { st with warnings := st.warnings ++ [versionWarning neo_reader] }
    else st
  let etype := if n_commands = 0 then "izero" else icephys_experiment_type
  let st :=
    if n_commands = 0 then { st with warnings := st.warnings ++ [noCommandWarning neo_reader] }
    else st
  add_icephys_recordings_core neo_reader st metadata etype stimulus_type skip_electrodes
    compression n_segments n_commands

/-! ## Claim theorems: changepoint extractor and unit resolver -/

/-- C1 (code_bug evidence): on `[1,1,2,2,3]` the extractor returns
indices `[1,3]` and values `[1,2]` — the positions *before* each change
and the labels switched *away from* — where its own docstring ("Frame
indices of the onset of each new syllable", "Label of the syllable
switched to") and the spec demand `[2,4]` and `[2,3]`.  The
`np.where(syllables[1:] != syllables[:-1])[0]` expression lacks the
`+ 1` shift. -/
theorem C1_extractor_divergence :
    dense_syllables_to_events [1, 1, 2, 2, 3] = ([1, 3], [1, 2]) := by decide

theorem zip_tail_eq_map_range (labels : List Int) :
    labels.zip labels.tail =
      (List.range (labels.length - 1)).map
        (fun j => (labels.getD j 0, labels.getD (j + 1) 0)) := by
  apply List.ext_getElem
  · simp [List.length_zip, List.length_tail]
  · intro i h1 h2
    have hlen : i < labels.length - 1 := by
      simpa [List.length_zip, List.length_tail] using h1
    have hi : i < labels.length := by omega
    have hi1 : i + 1 < labels.length := by omega
    have htail : i < labels.tail.length := by simp [List.length_tail]; omega
    simp only [List.getElem_zip, List.getElem_map, List.getElem_range, List.getElem_tail]
    rw [List.getD_eq_getElem labels 0 hi, List.getD_eq_getElem labels 0 hi1]

theorem dense_length_eq_adjacentDiffCount (labels : List Int) :
    (dense_syllables_to_events labels).1.length = adjacentDiffCount labels := by
  simp only [dense_syllables_to_events, adjacentDiffCount]
  rw [← List.countP_eq_length_filter, zip_tail_eq_map_range, List.countP_map]
  apply List.countP_congr
  intro j _
  simp only [Function.comp]
  constructor
  · intro h
    simpa [ne_comm] using h
  · intro h
    simpa [ne_comm] using h

/-- C8: the extractor's two outputs have equal length; that length is the
number of adjacent differing pairs; the index output is strictly
increasing; the empty input and every constant sequence yield two empty
outputs. -/
theorem C8_extractor_shape (labels : List Int) (_h : 2 ≤ labels.length) :
    (dense_syllables_to_events labels).1.length = (dense_syllables_to_events labels).2.length
    ∧ (dense_syllables_to_events labels).1.length = adjacentDiffCount labels
    ∧ List.Pairwise (fun a b => a < b) (dense_syllables_to_events labels).1
    ∧ dense_syllables_to_events [] = ([], [])
    ∧ (∀ (n : Nat) (c : Int), dense_syllables_to_events (List.replicate n c) = ([], [])) := by
  refine ⟨?_, dense_length_eq_adjacentDiffCount labels, ?_, by decide, ?_⟩
  · simp [dense_syllables_to_events]
  · simp only [dense_syllables_to_events]
    exact List.Pairwise.sublist (List.filter_sublist _) (List.pairwise_lt_range _)
  · intro n c
    have hf : (List.range (n - 1)).filter
        (fun j => (List.replicate n c).getD (j + 1) 0 ≠ (List.replicate n c).getD j 0) = [] := by
      rw [List.filter_eq_nil_iff]
      intro j hj
      have hjn : j < n - 1 := List.mem_range.mp hj
      have hj1 : j + 1 < (List.replicate n c).length := by simp; omega
      have hj0 : j < (List.replicate n c).length := by simp; omega
      rw [List.getD_eq_getElem _ 0 hj1, List.getD_eq_getElem _ 0 hj0,
        List.getElem_replicate, List.getElem_replicate]
      simp
    have hrw : dense_syllables_to_events (List.replicate n c)
        = ((List.range (n - 1)).filter
            (fun j => (List.replicate n c).getD (j + 1) 0 ≠ (List.replicate n c).getD j 0),
          ((List.range (n - 1)).filter
            (fun j => (List.replicate n c).getD (j + 1) 0 ≠ (List.replicate n c).getD j 0)).map
            (fun j => (List.replicate n c).getD j 0)) := by
      simp only [dense_syllables_to_events, List.length_replicate]
    rw [hrw, hf]
    simp

theorem C8_witness :
    (dense_syllables_to_events [1, 2]).1.length = (dense_syllables_to_events [1, 2]).2.length
    ∧ (dense_syllables_to_events [1, 2]).1.length = adjacentDiffCount [1, 2]
    ∧ List.Pairwise (fun a b => a < b) (dense_syllables_to_events [1, 2]).1
    ∧ dense_syllables_to_events [] = ([], [])
    ∧ (∀ (n : Nat) (c : Int), dense_syllables_to_events (List.replicate n c) = ([], [])) :=
  C8_extractor_shape [1, 2] (by decide)

/-- C5: the unit resolver maps "pA" to `1e-12` and "mV" to `1e-3`, and
every string outside the closed ten-entry table returns conversion `1`
with the warning flag set (a warning, not an exception). -/
theorem C5_unit_resolver :
    (get_conversion_from_unit "pA").1 = 1 / 10 ^ 12
    ∧ (get_conversion_from_unit "mV").1 = 1 / 10 ^ 3
    ∧ ∀ u : String, u ∉ unitTable → get_conversion_from_unit u = (1, true) := by
  refine ⟨?_, ?_, ?_⟩
  · simp only [get_conversion_from_unit]
    rw [if_pos (Or.inl trivial)]
  · simp only [get_conversion_from_unit]
    rw [if_neg (by decide), if_neg (by decide), if_neg (by decide), if_pos (by decide)]
  intro u hu
  have ht : unitTable = ["pA", "nA", "uA", "mA", "A", "pV", "nV", "uV", "mV", "V"] := by decide
  rw [ht] at hu
  simp only [List.mem_cons, List.not_mem_nil, or_false, not_or] at hu
  obtain ⟨hpA, hnA, huA, hmA, hA, hpV, hnV, huV, hmV, hV⟩ := hu
  simp [get_conversion_from_unit, hpA, hnA, huA, hmA, hA, hpV, hnV, huV, hmV, hV]

theorem C5_witness : get_conversion_from_unit "XYZ" = (1, true) :=
  C5_unit_resolver.2.2 "XYZ" (by decide)

/-! ## State evolution of the registrar functions

Every mutation performed by `add_device_from_metadata`,
`add_icephys_electrode` and the pre-loop part of
`add_icephys_recordings` leaves the three recording tables untouched and
only appends to warnings, electrodes and devices. -/

def RegistrarStep (st st' : NWBFile) : Prop :=
  st'.intracellular_recordings = st.intracellular_recordings
  ∧ st'.icephys_simultaneous_recordings = st.icephys_simultaneous_recordings
  ∧ st'.icephys_sequential_recordings = st.icephys_sequential_recordings
  ∧ (∃ w, st'.warnings = st.warnings ++ w)
  ∧ (∃ es, st'.icephys_electrodes = st.icephys_electrodes ++ es)
  ∧ (∃ ds, st'.devices = st.devices ++ ds)

theorem RegistrarStep.refl (st : NWBFile) : RegistrarStep st st :=
  ⟨rfl, rfl, rfl, ⟨[], by simp⟩, ⟨[], by simp⟩, ⟨[], by simp⟩⟩

theorem RegistrarStep.trans {a b c : NWBFile} (h1 : RegistrarStep a b) (h2 : RegistrarStep b c) :
    RegistrarStep a c := by
  obtain ⟨r1, s1, q1, ⟨w1, hw1⟩, ⟨e1, he1⟩, ⟨d1, hd1⟩⟩ := h1
  obtain ⟨r2, s2, q2, ⟨w2, hw2⟩, ⟨e2, he2⟩, ⟨d2, hd2⟩⟩ := h2
  refine ⟨r2.trans r1, s2.trans s1, q2.trans q1, ⟨w1 ++ w2, ?_⟩, ⟨e1 ++ e2, ?_⟩, ⟨d1 ++ d2, ?_⟩⟩
  · rw [hw2, hw1, List.append_assoc]
  · rw [he2, he1, List.append_assoc]
  · rw [hd2, hd1, List.append_assoc]

theorem RegistrarStep.warnAppend (st : NWBFile) (w : List String) :
    RegistrarStep st { st with warnings := st.warnings ++ w } :=
  ⟨rfl, rfl, rfl, ⟨w, rfl⟩, ⟨[], by simp⟩, ⟨[], by simp⟩⟩

theorem RegistrarStep.mem_warnings {a b : NWBFile} (h : RegistrarStep a b) {s : String}
    (hs : s ∈ a.warnings) : s ∈ b.warnings := by
  obtain ⟨_, _, _, ⟨w, hw⟩, _, _⟩ := h
  rw [hw]
  exact List.mem_append_left w hs

theorem add_device_from_metadata_step (st : NWBFile) (metadata : Option Metadata) :
    RegistrarStep st (add_device_from_metadata st metadata) := by
  unfold add_device_from_metadata
  split
  · exact RegistrarStep.refl st
  · exact ⟨rfl, rfl, rfl, ⟨[], by simp⟩, ⟨[], by simp⟩, ⟨_, rfl⟩⟩

theorem add_device_from_metadata_warnings (st : NWBFile) (metadata : Option Metadata) :
    (add_device_from_metadata st metadata).warnings = st.warnings := by
  unfold add_device_from_metadata
  split <;> rfl

theorem add_device_from_metadata_electrodes (st : NWBFile) (metadata : Option Metadata) :
    (add_device_from_metadata st metadata).icephys_electrodes = st.icephys_electrodes := by
  unfold add_device_from_metadata
  split <;> rfl

theorem add_device_from_metadata_ne_nil (st : NWBFile) (metadata : Option Metadata) :
    (add_device_from_metadata st metadata).devices ≠ [] := by
  unfold add_device_from_metadata
  split
  · intro hnil
    rename_i hc
    rw [hnil] at hc
    simp at hc
  · simp

theorem add_device_from_metadata_head (st : NWBFile) (metadata : Option Metadata)
    (h : st.devices ≠ []) :
    (add_device_from_metadata st metadata).devices.head? = st.devices.head? := by
  unfold add_device_from_metadata
  split
  · rfl
  · show (st.devices ++ _).head? = _
    rw [List.head?_append]
    obtain ⟨a, l, hl⟩ := List.exists_cons_of_ne_nil h
    rw [hl]
    rfl

theorem RegistrarStep.deviceWarn (st : NWBFile) (md : Option Metadata) (w : List String) :
    RegistrarStep st { add_device_from_metadata st md with
      warnings := (add_device_from_metadata st md).warnings ++ w } :=
  RegistrarStep.trans (add_device_from_metadata_step st md) (RegistrarStep.warnAppend _ w)

theorem ensureDeviceFor_step (dn : String) (st : NWBFile) :
    RegistrarStep st (ensureDeviceFor dn st) := by
  unfold ensureDeviceFor
  split
  · exact RegistrarStep.refl st
  · exact RegistrarStep.deviceWarn st _ _

theorem createElectrodes_step (defaults : List ElectrodeMeta) (metas : List ElectrodeMeta) :
    ∀ st : NWBFile, RegistrarStep st (createElectrodes defaults metas st).1 := by
  induction metas with
  | nil => intro st; exact RegistrarStep.refl st
  | cons m rest ih =>
    intro st
    rw [createElectrodes]
    cases hd : defaults.head? with
    | none => exact RegistrarStep.refl st
    | some d0 =>
      simp only
      split
      · exact ih st
      · split
        · refine RegistrarStep.trans ?_ (ih _)
          refine RegistrarStep.trans
            (ensureDeviceFor_step (m.device_name.getD (d0.device_name.getD "")) st) ?_
          exact ⟨rfl, rfl, rfl, ⟨[], by simp⟩, ⟨[_], rfl⟩, ⟨[], by simp⟩⟩
        · exact ensureDeviceFor_step _ st

theorem add_icephys_electrode_step (neo_reader : NeoReader) (st : NWBFile)
    (metadata : Option Metadata) :
    RegistrarStep st (add_icephys_electrode neo_reader st metadata).1 := by
  simp only [add_icephys_electrode]
  split
  · split
    · exact RegistrarStep.trans (RegistrarStep.warnAppend st _)
        (add_device_from_metadata_step _ metadata)
    · refine RegistrarStep.trans ?_ (createElectrodes_step _ _ _)
      exact RegistrarStep.trans
        (RegistrarStep.warnAppend st
          ["When adding Icephys Electrode, no Devices were found on nwbfile. Creating a Device now..."])
        (add_device_from_metadata_step _ metadata)
  · split
    · exact RegistrarStep.refl st
    · exact createElectrodes_step _ _ st

/-- The state after the two possible downgrade warnings at the top of
`add_icephys_recordings`. -/
def preWarned (neo_reader : NeoReader) (st : NWBFile) : NWBFile :=
  let n_commands := if neo_reader.fFileVersionNumber < 2 then 0 else neo_reader.n_protocol_traces
  let st :=
    if neo_reader.fFileVersionNumber < 2 then
      { st with warnings := st.warnings ++ [versionWarning neo_reader] }
    else st
  if n_commands = 0 then { st with warnings := st.warnings ++ [noCommandWarning neo_reader] }
  else st

theorem add_icephys_recordings_eq (neo_reader : NeoReader) (st : NWBFile)
    (metadata : Option Metadata) (icephys_experiment_type stimulus_type : String)
    (skip_electrodes : List Nat) (compression : String) :
    add_icephys_recordings neo_reader st metadata icephys_experiment_type stimulus_type
        skip_electrodes compression
      = add_icephys_recordings_core neo_reader (preWarned neo_reader st) metadata
          (if (if neo_reader.fFileVersionNumber < 2 then 0 else neo_reader.n_protocol_traces) = 0
            then "izero" else icephys_experiment_type)
          stimulus_type skip_electrodes compression neo_reader.nb_segment
          (if neo_reader.fFileVersionNumber < 2 then 0 else neo_reader.n_protocol_traces) := rfl

theorem warnIf_step (c : Prop) [Decidable c] (st : NWBFile) (w : List String) :
    RegistrarStep st (if c then { st with warnings := st.warnings ++ w } else st) := by
  split
  · exact RegistrarStep.warnAppend st w
  · exact RegistrarStep.refl st

theorem preWarned_step (neo_reader : NeoReader) (st : NWBFile) :
    RegistrarStep st (preWarned neo_reader st) := by
  unfold preWarned
  exact RegistrarStep.trans (warnIf_step _ st _) (warnIf_step _ _ _)

theorem core_error_of_lookup_none (neo_reader : NeoReader) (st : NWBFile)
    (metadata : Option Metadata) (etype stimulus_type : String)
    (skip_electrodes : List Nat) (compression : String) (n_segments n_commands : Nat)
    (h : sessionLookup metadata st.icephys_sequential_recordings.length = none) :
    (add_icephys_recordings_core neo_reader st metadata etype stimulus_type skip_electrodes
        compression n_segments n_commands).2.isSome = true
    ∧ RegistrarStep st (add_icephys_recordings_core neo_reader st metadata etype stimulus_type
        skip_electrodes compression n_segments n_commands).1 := by
  unfold add_icephys_recordings_core
  split
  · exact ⟨rfl, RegistrarStep.refl st⟩
  · split
    · exact ⟨rfl, RegistrarStep.refl st⟩
    · by_cases he : st.icephys_electrodes.length = 0
      · rw [if_pos he]
        have hs : RegistrarStep st (add_icephys_electrode neo_reader
            { st with warnings := st.warnings ++ [electrodesWarning] } metadata).1 :=
          RegistrarStep.trans (RegistrarStep.warnAppend st [electrodesWarning])
            (add_icephys_electrode_step _ _ _)
        rcases hval : add_icephys_electrode neo_reader
            { st with warnings := st.warnings ++ [electrodesWarning] } metadata with ⟨st1, err⟩
        rw [hval] at hs
        cases err with
        | some e => exact ⟨rfl, hs⟩
        | none =>
          have hs1 : RegistrarStep st st1 := hs
          have hseq : st1.icephys_sequential_recordings = st.icephys_sequential_recordings :=
            hs1.2.2.1
          simp only [hseq, h]
          exact ⟨rfl, hs1⟩
      · rw [if_neg he]
        simp only [h]
        exact ⟨rfl, RegistrarStep.refl st⟩

/-- C2: a reader whose protocol reports a nonzero command count different
from the segment count makes `add_icephys_recordings` fail, returning the
container exactly as it was: no intracellular-recording row, no
simultaneous-recording group and no sequential-recording group is
appended (nor any other mutation). -/
theorem C2_command_count_mismatch (neo_reader : NeoReader) (st : NWBFile)
    (metadata : Option Metadata) (icephys_experiment_type stimulus_type : String)
    (skip_electrodes : List Nat) (compression : String)
    (h1 : ¬ neo_reader.fFileVersionNumber < 2)
    (h2 : neo_reader.n_protocol_traces ≠ 0)
    (h3 : neo_reader.n_protocol_traces ≠ neo_reader.nb_segment) :
    (add_icephys_recordings neo_reader st metadata icephys_experiment_type stimulus_type
        skip_electrodes compression).2.isSome = true
    ∧ (add_icephys_recordings neo_reader st metadata icephys_experiment_type stimulus_type
        skip_electrodes compression).1 = st := by
  rw [add_icephys_recordings_eq]
  unfold add_icephys_recordings_core preWarned
  simp [h1, h2, h3]

/-- C10: `add_icephys_recordings` silently requires
`metadata["Icephys"]["Sessions"]` to hold an entry (with both
`relative_session_start_time` and `stimulus_type`) at the index given by
the container's current sequential-recordings count; whenever that
lookup cannot succeed — in particular for the documented default
`metadata=None` — the call raises and no intracellular-recording row is
appended. -/
theorem C10_metadata_sessions_required (neo_reader : NeoReader) (st : NWBFile)
    (metadata : Option Metadata) (icephys_experiment_type stimulus_type : String)
    (skip_electrodes : List Nat) (compression : String)
    (h : sessionLookup metadata st.icephys_sequential_recordings.length = none) :
    (add_icephys_recordings neo_reader st metadata icephys_experiment_type stimulus_type
        skip_electrodes compression).2.isSome = true
    ∧ (add_icephys_recordings neo_reader st metadata icephys_experiment_type stimulus_type
        skip_electrodes compression).1.intracellular_recordings
      = st.intracellular_recordings := by
  rw [add_icephys_recordings_eq]
  have hpw : RegistrarStep st (preWarned neo_reader st) := preWarned_step neo_reader st
  obtain ⟨hsome, hstep⟩ := core_error_of_lookup_none neo_reader (preWarned neo_reader st)
    metadata
    (if (if neo_reader.fFileVersionNumber < 2 then 0 else neo_reader.n_protocol_traces) = 0
      then "izero" else icephys_experiment_type)
    stimulus_type skip_electrodes compression neo_reader.nb_segment
    (if neo_reader.fFileVersionNumber < 2 then 0 else neo_reader.n_protocol_traces)
    (by rw [hpw.2.2.1]; exact h)
  exact ⟨hsome, by rw [hstep.1, hpw.1]⟩

/-! Concrete objects used by the witnesses. -/

def emptyNWB : NWBFile :=
  { devices := [], icephys_electrodes := [], intracellular_recordings := []
    icephys_simultaneous_recordings := [], icephys_sequential_recordings := [], warnings := [] }

def sampleChannel : SignalChannel := { unit := "pA", gain := 2 }

def sampleReader : NeoReader :=
  { nb_segment := 1
    fFileVersionNumber := 1
    n_protocol_traces := 0
    protocol_trace := fun _ _ => []
    protocol_unit := fun _ => "pA"
    signal_channels := [sampleChannel]
    get_signal_t_start := fun _ => 0
    get_signal_sampling_rate := 100
    get_analogsignal_chunk := fun _ _ => [1, 2]
    filename := "f.abf" }

def mismatchReader : NeoReader :=
  { sampleReader with fFileVersionNumber := 2, n_protocol_traces := 3, nb_segment := 2 }

def sampleReader2 : NeoReader :=
  { sampleReader with signal_channels := [sampleChannel, sampleChannel] }

def sampleSession : SessionMeta :=
  { relative_session_start_time := some 0, stimulus_type := some "ramp" }

def sampleMetadata : Metadata :=
  { Icephys := some
      { Device := none, Electrodes := none, Sessions := some [sampleSession, sampleSession] }
    Ecephys := none }

theorem C2_witness :
    (add_icephys_recordings mismatchReader emptyNWB none "voltage_clamp" "s" [] "gzip").2.isSome
      = true
    ∧ (add_icephys_recordings mismatchReader emptyNWB none "voltage_clamp" "s" [] "gzip").1
      = emptyNWB :=
  C2_command_count_mismatch mismatchReader emptyNWB none "voltage_clamp" "s" [] "gzip"
    (by norm_num [mismatchReader, sampleReader]) (by decide) (by decide)

theorem C10_witness :
    (add_icephys_recordings sampleReader emptyNWB none "voltage_clamp" "s" [] "gzip").2.isSome
      = true
    ∧ (add_icephys_recordings sampleReader emptyNWB none "voltage_clamp" "s" [] "gzip").1.intracellular_recordings
      = emptyNWB.intracellular_recordings :=
  C10_metadata_sessions_required sampleReader emptyNWB none "voltage_clamp" "s" [] "gzip" rfl

/-! ## The segment loop: shape of the rows it appends -/

/-- What every row built by the electrode loop satisfies: its response
carries the effective experiment type, and it has no stimulus exactly
for the no-stimulus variant. -/
def RowP (etype : String) (row : ICRow) : Prop :=
  row.response.experimentType = etype ∧ (row.stimulus = none ↔ etype = "izero")

theorem addElectrodeRecording_cases (neo_reader : NeoReader) (etype : String) (rel_start : ℚ)
    (sess_stim : String) (sim_offset : Nat) (skip_electrodes : List Nat) (compression : String)
    (si : Nat) (st : NWBFile) (recs : List Nat) (p : Nat × Electrode) :
    addElectrodeRecording neo_reader etype rel_start sess_stim sim_offset skip_electrodes
        compression si (st, recs) p = (st, recs)
    ∨ ∃ row w,
        addElectrodeRecording neo_reader etype rel_start sess_stim sim_offset skip_electrodes
            compression si (st, recs) p
          = ({ st with
                intracellular_recordings := st.intracellular_recordings ++ [row],
                warnings := st.warnings ++ w },
             recs ++ [st.intracellular_recordings.length])
        ∧ RowP etype row := by
  simp only [addElectrodeRecording]
  split_ifs
  · exact Or.inl rfl
  · exact Or.inr ⟨builtRow neo_reader etype rel_start sess_stim sim_offset compression si p.1 p.2,
      [unitWarning, unitWarning], by simp, by simp_all [RowP, builtRow, buildResponse]⟩
  · exact Or.inr ⟨builtRow neo_reader etype rel_start sess_stim sim_offset compression si p.1 p.2,
      [unitWarning], by simp, by simp_all [RowP, builtRow, buildResponse]⟩
  · exact Or.inr ⟨builtRow neo_reader etype rel_start sess_stim sim_offset compression si p.1 p.2,
      [unitWarning], by simp, by simp_all [RowP, builtRow, buildResponse]⟩
  · exact Or.inr ⟨builtRow neo_reader etype rel_start sess_stim sim_offset compression si p.1 p.2,
      [], by simp, by simp_all [RowP, builtRow, buildResponse]⟩
  · exact Or.inr ⟨builtRow neo_reader etype rel_start sess_stim sim_offset compression si p.1 p.2,
      [unitWarning], by simp, by simp_all [RowP, builtRow, buildResponse]⟩
  · exact Or.inr ⟨builtRow neo_reader etype rel_start sess_stim sim_offset compression si p.1 p.2,
      [], by simp, by simp_all [RowP, builtRow, buildResponse]⟩

theorem foldRecording_spec (neo_reader : NeoReader) (etype : String) (rel_start : ℚ)
    (sess_stim : String) (sim_offset : Nat) (skip_electrodes : List Nat) (compression : String)
    (si : Nat) (l : List (Nat × Electrode)) :
    ∀ (st : NWBFile) (recs : List Nat),
      ∃ new w,
        (l.foldl (addElectrodeRecording neo_reader etype rel_start sess_stim sim_offset
            skip_electrodes compression si) (st, recs)).1
          = { st with
              intracellular_recordings := st.intracellular_recordings ++ new,
              warnings := st.warnings ++ w }
        ∧ (l.foldl (addElectrodeRecording neo_reader etype rel_start sess_stim sim_offset
            skip_electrodes compression si) (st, recs)).2
          = recs ++ List.range' st.intracellular_recordings.length new.length
        ∧ ∀ row ∈ new, RowP etype row := by
  induction l with
  | nil =>
    intro st recs
    exact ⟨[], [], by simp, by simp, by simp⟩
  | cons p rest ih =>
    intro st recs
    rw [List.foldl_cons]
    rcases addElectrodeRecording_cases neo_reader etype rel_start sess_stim sim_offset
        skip_electrodes compression si st recs p with hskip | ⟨row, w1, heq, hrow⟩
    · rw [hskip]
      exact ih st recs
    · rw [heq]
      obtain ⟨new', w', h1, h2, h3⟩ := ih
        { st with
          intracellular_recordings := st.intracellular_recordings ++ [row],
          warnings := st.warnings ++ w1 }
        (recs ++ [st.intracellular_recordings.length])
      refine ⟨row :: new', w1 ++ w', ?_, ?_, ?_⟩
      · rw [h1]
        simp
      · rw [h2]
        simp [List.range'_succ]
      · intro r hr
        rcases List.mem_cons.mp hr with h | h
        · exact h ▸ hrow
        · exact h3 r h

theorem addSegmentRecordings_spec (neo_reader : NeoReader) (etype : String) (rel_start : ℚ)
    (sess_stim : String) (sim_offset : Nat) (skip_electrodes : List Nat) (compression : String)
    (si : Nat) (st : NWBFile) :
    ∃ new w,
      (addSegmentRecordings neo_reader etype rel_start sess_stim sim_offset skip_electrodes
          compression si st).1
        = { st with
            intracellular_recordings := st.intracellular_recordings ++ new,
            warnings := st.warnings ++ w }
      ∧ (addSegmentRecordings neo_reader etype rel_start sess_stim sim_offset skip_electrodes
          compression si st).2
        = List.range' st.intracellular_recordings.length new.length
      ∧ ∀ row ∈ new, RowP etype row := by
  obtain ⟨new, w, h1, h2, h3⟩ := foldRecording_spec neo_reader etype rel_start sess_stim
    sim_offset skip_electrodes compression si
    ((st.icephys_electrodes.take neo_reader.signal_channels.length).enum) st []
  exact ⟨new, w, h1, by simpa using h2, h3⟩

theorem runSegments_spec (neo_reader : NeoReader) (etype : String) (rel_start : ℚ)
    (sess_stim : String) (sim_offset : Nat) (skip_electrodes : List Nat) (compression : String) :
    ∀ (n : Nat) (st : NWBFile),
      ∃ new w gs,
        (runSegments neo_reader etype rel_start sess_stim sim_offset skip_electrodes
            compression n st).1
          = { st with
              intracellular_recordings := st.intracellular_recordings ++ new,
              icephys_simultaneous_recordings := st.icephys_simultaneous_recordings ++ gs,
              warnings := st.warnings ++ w }
        ∧ (runSegments neo_reader etype rel_start sess_stim sim_offset skip_electrodes
            compression n st).2
          = List.range' st.icephys_simultaneous_recordings.length n
        ∧ gs.length = n
        ∧ gs.flatten = List.range' st.intracellular_recordings.length new.length
        ∧ ∀ row ∈ new, RowP etype row := by
  intro n
  induction n with
  | zero =>
    intro st
    exact ⟨[], [], [], by simp [runSegments], by simp [runSegments], rfl, by simp, by simp⟩
  | succ n ih =>
    intro st
    obtain ⟨new, w, gs, H1, H2, H3, H4, H5⟩ := ih st
    obtain ⟨segNew, w2, G1, G2, G3⟩ := addSegmentRecordings_spec neo_reader etype rel_start
      sess_stim sim_offset skip_electrodes compression n
      ((runSegments neo_reader etype rel_start sess_stim sim_offset skip_electrodes
        compression n st).1)
    refine ⟨new ++ segNew, w ++ w2,
      gs ++ [List.range' (st.intracellular_recordings.length + new.length) segNew.length],
      ?_, ?_, ?_, ?_, ?_⟩
    · simp only [runSegments]
      rw [G2, G1, H1]
      simp
    · simp only [runSegments]
      rw [H2, G1, H1]
      simp [H3, List.range'_concat]
    · simp [H3]
    · rw [List.flatten_append, H4]
      have hr := List.range'_append st.intracellular_recordings.length new.length
        segNew.length 1
      simp only [one_mul] at hr
      simp only [List.flatten_cons, List.flatten_nil, List.append_nil, List.length_append]
      rw [Nat.add_comm new.length segNew.length, ← hr]
    · intro r hr
      rcases List.mem_append.mp hr with h | h
      · exact H5 r h
      · exact G3 r h

theorem core_tail_spec (neo_reader : NeoReader) (st st1 : NWBFile)
    (etype stimulus_type : String) (skip_electrodes : List Nat) (compression : String)
    (n_segments : Nat) (rel_start : ℚ) (sess_stim : String)
    (hs : RegistrarStep st st1) :
    ∃ new gs w,
      ({ (runSegments neo_reader etype rel_start sess_stim
            st1.icephys_simultaneous_recordings.length skip_electrodes compression
            n_segments st1).1 with
         icephys_sequential_recordings :=
           (runSegments neo_reader etype rel_start sess_stim
              st1.icephys_simultaneous_recordings.length skip_electrodes compression
              n_segments st1).1.icephys_sequential_recordings ++
             [({ simultaneous_recordings :=
                   (runSegments neo_reader etype rel_start sess_stim
                     st1.icephys_simultaneous_recordings.length skip_electrodes compression
                     n_segments st1).2,
                 stimulus_type := stimulus_type } : SequentialRecording)] }).intracellular_recordings
        = st.intracellular_recordings ++ new
      ∧ (∀ row ∈ new, RowP etype row)
      ∧ ({ (runSegments neo_reader etype rel_start sess_stim
            st1.icephys_simultaneous_recordings.length skip_electrodes compression
            n_segments st1).1 with
         icephys_sequential_recordings :=
           (runSegments neo_reader etype rel_start sess_stim
              st1.icephys_simultaneous_recordings.length skip_electrodes compression
              n_segments st1).1.icephys_sequential_recordings ++
             [({ simultaneous_recordings :=
                   (runSegments neo_reader etype rel_start sess_stim
                     st1.icephys_simultaneous_recordings.length skip_electrodes compression
                     n_segments st1).2,
                 stimulus_type := stimulus_type } : SequentialRecording)] }).icephys_simultaneous_recordings
        = st.icephys_simultaneous_recordings ++ gs
      ∧ gs.length = n_segments
      ∧ gs.flatten = List.range' st.intracellular_recordings.length new.length
      ∧ ({ (runSegments neo_reader etype rel_start sess_stim
            st1.icephys_simultaneous_recordings.length skip_electrodes compression
            n_segments st1).1 with
         icephys_sequential_recordings :=
           (runSegments neo_reader etype rel_start sess_stim
              st1.icephys_simultaneous_recordings.length skip_electrodes compression
              n_segments st1).1.icephys_sequential_recordings ++
             [({ simultaneous_recordings :=
                   (runSegments neo_reader etype rel_start sess_stim
                     st1.icephys_simultaneous_recordings.length skip_electrodes compression
                     n_segments st1).2,
                 stimulus_type := stimulus_type } : SequentialRecording)] }).icephys_sequential_recordings
        = st.icephys_sequential_recordings ++
          [{ simultaneous_recordings :=
              List.range' st.icephys_simultaneous_recordings.length n_segments,
             stimulus_type := stimulus_type }]
      ∧ ({ (runSegments neo_reader etype rel_start sess_stim
            st1.icephys_simultaneous_recordings.length skip_electrodes compression
            n_segments st1).1 with
         icephys_sequential_recordings :=
           (runSegments neo_reader etype rel_start sess_stim
              st1.icephys_simultaneous_recordings.length skip_electrodes compression
              n_segments st1).1.icephys_sequential_recordings ++
             [({ simultaneous_recordings :=
                   (runSegments neo_reader etype rel_start sess_stim
                     st1.icephys_simultaneous_recordings.length skip_electrodes compression
                     n_segments st1).2,
                 stimulus_type := stimulus_type } : SequentialRecording)] }).warnings
        = st.warnings ++ w := by
  obtain ⟨new, w2, gs, R1, R2, R3, R4, R5⟩ := runSegments_spec neo_reader etype rel_start
    sess_stim st1.icephys_simultaneous_recordings.length skip_electrodes compression
    n_segments st1
  obtain ⟨hrows, hsim, hseq, ⟨we, hw⟩, -, -⟩ := hs
  refine ⟨new, gs, we ++ w2, ?_, R5, ?_, R3, ?_, ?_, ?_⟩
  · show (runSegments neo_reader etype rel_start sess_stim
        st1.icephys_simultaneous_recordings.length skip_electrodes compression
        n_segments st1).1.intracellular_recordings = _
    rw [R1]
    simp [hrows]
  · show (runSegments neo_reader etype rel_start sess_stim
        st1.icephys_simultaneous_recordings.length skip_electrodes compression
        n_segments st1).1.icephys_simultaneous_recordings = _
    rw [R1]
    simp [hsim]
  · rw [R4, hrows]
  · show (runSegments neo_reader etype rel_start sess_stim
          st1.icephys_simultaneous_recordings.length skip_electrodes compression
          n_segments st1).1.icephys_sequential_recordings ++ _ = _
    rw [R2, R1]
    simp [hseq, hsim]
  · show (runSegments neo_reader etype rel_start sess_stim
        st1.icephys_simultaneous_recordings.length skip_electrodes compression
        n_segments st1).1.warnings = _
    rw [R1]
    simp [hw]

theorem core_success_spec (neo_reader : NeoReader) (st : NWBFile) (metadata : Option Metadata)
    (etype stimulus_type : String) (skip_electrodes : List Nat) (compression : String)
    (n_segments n_commands : Nat)
    (h : (add_icephys_recordings_core neo_reader st metadata etype stimulus_type skip_electrodes
        compression n_segments n_commands).2 = none) :
    ∃ new gs w,
      (add_icephys_recordings_core neo_reader st metadata etype stimulus_type skip_electrodes
          compression n_segments n_commands).1.intracellular_recordings
        = st.intracellular_recordings ++ new
      ∧ (∀ row ∈ new, RowP etype row)
      ∧ (add_icephys_recordings_core neo_reader st metadata etype stimulus_type skip_electrodes
          compression n_segments n_commands).1.icephys_simultaneous_recordings
        = st.icephys_simultaneous_recordings ++ gs
      ∧ gs.length = n_segments
      ∧ gs.flatten = List.range' st.intracellular_recordings.length new.length
      ∧ (add_icephys_recordings_core neo_reader st metadata etype stimulus_type skip_electrodes
          compression n_segments n_commands).1.icephys_sequential_recordings
        = st.icephys_sequential_recordings ++
          [({ simultaneous_recordings :=
                List.range' st.icephys_simultaneous_recordings.length n_segments,
              stimulus_type := stimulus_type } : SequentialRecording)]
      ∧ (add_icephys_recordings_core neo_reader st metadata etype stimulus_type skip_electrodes
          compression n_segments n_commands).1.warnings = st.warnings ++ w := by
  unfold add_icephys_recordings_core at h ⊢
  by_cases h1 : n_commands ≠ 0 ∧ n_commands ≠ n_segments
  · rw [if_pos h1] at h
    simp at h
  rw [if_neg h1] at h ⊢
  by_cases h2 : ¬ (etype = "voltage_clamp" ∨ etype = "current_clamp" ∨ etype = "izero")
  · rw [if_pos h2] at h
    simp at h
  rw [if_neg h2] at h ⊢
  by_cases he : st.icephys_electrodes.length = 0
  · rw [if_pos he] at h ⊢
    rcases hval : add_icephys_electrode neo_reader
        { st with warnings := st.warnings ++ [electrodesWarning] } metadata with ⟨st1, err⟩
    rw [hval] at h
    have hs : RegistrarStep st st1 := by
      have hstep := RegistrarStep.trans (RegistrarStep.warnAppend st [electrodesWarning])
        (add_icephys_electrode_step neo_reader
          { st with warnings := st.warnings ++ [electrodesWarning] } metadata)
      rw [hval] at hstep
      exact hstep
    cases err with
    | some e => simp at h
    | none =>
      cases hl : sessionLookup metadata st1.icephys_sequential_recordings.length with
      | none =>
        simp [hl] at h
      | some rt =>
        simp only [hl]
        exact core_tail_spec neo_reader st st1 etype stimulus_type skip_electrodes compression
          n_segments rt.1 rt.2 hs
  · rw [if_neg he] at h ⊢
    cases hl : sessionLookup metadata st.icephys_sequential_recordings.length with
    | none =>
      simp [hl] at h
    | some rt =>
      simp only [hl]
      exact core_tail_spec neo_reader st st etype stimulus_type skip_electrodes compression
        n_segments rt.1 rt.2 (RegistrarStep.refl st)

theorem core_rows_warnings (neo_reader : NeoReader) (st : NWBFile) (metadata : Option Metadata)
    (etype stimulus_type : String) (skip_electrodes : List Nat) (compression : String)
    (n_segments n_commands : Nat) :
    ∃ newRows w,
      (add_icephys_recordings_core neo_reader st metadata etype stimulus_type skip_electrodes
          compression n_segments n_commands).1.intracellular_recordings
        = st.intracellular_recordings ++ newRows
      ∧ (∀ row ∈ newRows, RowP etype row)
      ∧ (add_icephys_recordings_core neo_reader st metadata etype stimulus_type skip_electrodes
          compression n_segments n_commands).1.warnings = st.warnings ++ w := by
  unfold add_icephys_recordings_core
  by_cases h1 : n_commands ≠ 0 ∧ n_commands ≠ n_segments
  · rw [if_pos h1]
    exact ⟨[], [], by simp, by simp, by simp⟩
  rw [if_neg h1]
  by_cases h2 : ¬ (etype = "voltage_clamp" ∨ etype = "current_clamp" ∨ etype = "izero")
  · rw [if_pos h2]
    exact ⟨[], [], by simp, by simp, by simp⟩
  rw [if_neg h2]
  by_cases he : st.icephys_electrodes.length = 0
  · rw [if_pos he]
    rcases hval : add_icephys_electrode neo_reader
        { st with warnings := st.warnings ++ [electrodesWarning] } metadata with ⟨st1, err⟩
    have hs : RegistrarStep st st1 := by
      have hstep := RegistrarStep.trans (RegistrarStep.warnAppend st [electrodesWarning])
        (add_icephys_electrode_step neo_reader
          { st with warnings := st.warnings ++ [electrodesWarning] } metadata)
      rw [hval] at hstep
      exact hstep
    obtain ⟨hw, hww⟩ := hs.2.2.2.1
    cases err with
    | some e => exact ⟨[], hw, by simp [hs.1], by simp, by simp [hww]⟩
    | none =>
      cases hl : sessionLookup metadata st1.icephys_sequential_recordings.length with
      | none =>
        simp only [hl]
        exact ⟨[], hw, by simp [hs.1], by simp, by simp [hww]⟩
      | some rt =>
        simp only [hl]
        obtain ⟨new, gs, w, T1, T2, T3, T4, T5, T6, T7⟩ :=
          core_tail_spec neo_reader st st1 etype stimulus_type skip_electrodes compression
            n_segments rt.1 rt.2 hs
        exact ⟨new, w, T1, T2, T7⟩
  · rw [if_neg he]
    cases hl : sessionLookup metadata st.icephys_sequential_recordings.length with
    | none =>
      simp only [hl]
      exact ⟨[], [], by simp, by simp, by simp⟩
    | some rt =>
      simp only [hl]
      obtain ⟨new, gs, w, T1, T2, T3, T4, T5, T6, T7⟩ :=
        core_tail_spec neo_reader st st etype stimulus_type skip_electrodes compression
          n_segments rt.1 rt.2 (RegistrarStep.refl st)
      exact ⟨new, w, T1, T2, T7⟩

theorem preWarned_noCommand_mem (neo_reader : NeoReader) (st : NWBFile)
    (h : (if neo_reader.fFileVersionNumber < 2 then 0 else neo_reader.n_protocol_traces) = 0) :
    noCommandWarning neo_reader ∈ (preWarned neo_reader st).warnings := by
  unfold preWarned
  rw [if_pos h]
  simp

/-- C3: when the reader reports no stimulus commands (pre-ABF2 file or an
empty protocol), the downgrade warning is emitted, the experiment type
actually used for every appended response is the no-stimulus variant
"izero" regardless of the caller's requested type, and no stimulus record
is attached to any appended intracellular-recording row. -/
theorem C3_izero_downgrade (neo_reader : NeoReader) (st : NWBFile) (metadata : Option Metadata)
    (icephys_experiment_type stimulus_type : String) (skip_electrodes : List Nat)
    (compression : String)
    (h : neo_reader.fFileVersionNumber < 2 ∨ neo_reader.n_protocol_traces = 0) :
    noCommandWarning neo_reader
      ∈ (add_icephys_recordings neo_reader st metadata icephys_experiment_type stimulus_type
          skip_electrodes compression).1.warnings
    ∧ ∃ newRows,
        (add_icephys_recordings neo_reader st metadata icephys_experiment_type stimulus_type
            skip_electrodes compression).1.intracellular_recordings
          = st.intracellular_recordings ++ newRows
        ∧ ∀ row ∈ newRows,
            row.response.experimentType = "izero" ∧ row.stimulus = none := by
  have hn : (if neo_reader.fFileVersionNumber < 2 then 0 else neo_reader.n_protocol_traces)
      = 0 := by
    rcases h with h | h <;> simp [h]
  have hz : (if (0 : Nat) = 0 then "izero" else icephys_experiment_type) = "izero" :=
    if_pos rfl
  rw [add_icephys_recordings_eq, hn, hz]
  obtain ⟨newRows, w, T1, T2, T3⟩ := core_rows_warnings neo_reader (preWarned neo_reader st)
    metadata "izero" stimulus_type skip_electrodes compression neo_reader.nb_segment 0
  constructor
  · rw [T3]
    exact List.mem_append_left w (preWarned_noCommand_mem neo_reader st hn)
  · refine ⟨newRows, ?_, ?_⟩
    · rw [T1, (preWarned_step neo_reader st).1]
    · intro row hrow
      obtain ⟨hexp, hstim⟩ := T2 row hrow
      exact ⟨hexp, hstim.mpr rfl⟩

theorem C3_witness :
    noCommandWarning sampleReader
      ∈ (add_icephys_recordings sampleReader emptyNWB (some sampleMetadata) "voltage_clamp"
          "stype" [] "gzip").1.warnings
    ∧ ∃ newRows,
        (add_icephys_recordings sampleReader emptyNWB (some sampleMetadata) "voltage_clamp"
            "stype" [] "gzip").1.intracellular_recordings
          = emptyNWB.intracellular_recordings ++ newRows
        ∧ ∀ row ∈ newRows,
            row.response.experimentType = "izero" ∧ row.stimulus = none :=
  C3_izero_downgrade sampleReader emptyNWB (some sampleMetadata) "voltage_clamp" "stype" []
    "gzip" (Or.inl (by norm_num [sampleReader]))

/-- C7: every successful call appends exactly `n_segments`
simultaneous-recording groups — which together list exactly the row
indices created by the call, one contiguous block per segment in order —
and exactly one sequential-recording group whose members are exactly the
simultaneous-recording groups appended by this call, tagged with the
caller's `stimulus_type` argument. -/
theorem C7_grouping (neo_reader : NeoReader) (st : NWBFile) (metadata : Option Metadata)
    (icephys_experiment_type stimulus_type : String) (skip_electrodes : List Nat)
    (compression : String)
    (h : (add_icephys_recordings neo_reader st metadata icephys_experiment_type stimulus_type
        skip_electrodes compression).2 = none) :
    ∃ newRows gs,
      (add_icephys_recordings neo_reader st metadata icephys_experiment_type stimulus_type
          skip_electrodes compression).1.intracellular_recordings
        = st.intracellular_recordings ++ newRows
      ∧ (add_icephys_recordings neo_reader st metadata icephys_experiment_type stimulus_type
          skip_electrodes compression).1.icephys_simultaneous_recordings
        = st.icephys_simultaneous_recordings ++ gs
      ∧ gs.length = neo_reader.nb_segment
      ∧ gs.flatten = List.range' st.intracellular_recordings.length newRows.length
      ∧ (add_icephys_recordings neo_reader st metadata icephys_experiment_type stimulus_type
          skip_electrodes compression).1.icephys_sequential_recordings
        = st.icephys_sequential_recordings ++
          [({ simultaneous_recordings :=
                List.range' st.icephys_simultaneous_recordings.length neo_reader.nb_segment,
              stimulus_type := stimulus_type } : SequentialRecording)] := by
  rw [add_icephys_recordings_eq] at h ⊢
  obtain ⟨new, gs, w, T1, T2, T3, T4, T5, T6, T7⟩ := core_success_spec neo_reader
    (preWarned neo_reader st) metadata
    (if (if neo_reader.fFileVersionNumber < 2 then 0 else neo_reader.n_protocol_traces) = 0
      then "izero" else icephys_experiment_type)
    stimulus_type skip_electrodes compression neo_reader.nb_segment
    (if neo_reader.fFileVersionNumber < 2 then 0 else neo_reader.n_protocol_traces) h
  obtain ⟨hrows, hsim, hseq, -, -, -⟩ := preWarned_step neo_reader st
  refine ⟨new, gs, ?_, ?_, T4, ?_, ?_⟩
  · rw [T1, hrows]
  · rw [T3, hsim]
  · rw [T5, hrows]
  · rw [T6, hsim, hseq]

theorem C7_witness :
    ∃ newRows gs,
      (add_icephys_recordings sampleReader emptyNWB (some sampleMetadata) "voltage_clamp"
          "stype" [] "gzip").1.intracellular_recordings
        = emptyNWB.intracellular_recordings ++ newRows
      ∧ (add_icephys_recordings sampleReader emptyNWB (some sampleMetadata) "voltage_clamp"
          "stype" [] "gzip").1.icephys_simultaneous_recordings
        = emptyNWB.icephys_simultaneous_recordings ++ gs
      ∧ gs.length = sampleReader.nb_segment
      ∧ gs.flatten
        = List.range' emptyNWB.intracellular_recordings.length newRows.length
      ∧ (add_icephys_recordings sampleReader emptyNWB (some sampleMetadata) "voltage_clamp"
          "stype" [] "gzip").1.icephys_sequential_recordings
        = emptyNWB.icephys_sequential_recordings ++
          [({ simultaneous_recordings :=
                List.range' emptyNWB.icephys_simultaneous_recordings.length
                  sampleReader.nb_segment,
              stimulus_type := "stype" } : SequentialRecording)] :=
  C7_grouping sampleReader emptyNWB (some sampleMetadata) "voltage_clamp" "stype" [] "gzip" rfl

/-- C4: two consecutive calls on the same container produce globally
unique, strictly increasing intracellular-recording row indices: the
indices collected into the simultaneous-recording groups appended by the
first call, followed by those of the second call, form a strictly
increasing sequence (hence no index is ever reused or reset). -/
theorem C4_index_monotonicity (r1 r2 : NeoReader) (st0 : NWBFile) (m1 m2 : Option Metadata)
    (e1 e2 t1 t2 : String) (k1 k2 : List Nat) (c1 c2 : String)
    (h1 : (add_icephys_recordings r1 st0 m1 e1 t1 k1 c1).2 = none)
    (h2 : (add_icephys_recordings r2 (add_icephys_recordings r1 st0 m1 e1 t1 k1 c1).1
        m2 e2 t2 k2 c2).2 = none) :
    List.Pairwise (fun a b => a < b)
      ((((add_icephys_recordings r1 st0 m1 e1 t1 k1 c1).1.icephys_simultaneous_recordings.drop
            st0.icephys_simultaneous_recordings.length).flatten)
        ++ (((add_icephys_recordings r2 (add_icephys_recordings r1 st0 m1 e1 t1 k1 c1).1
              m2 e2 t2 k2 c2).1.icephys_simultaneous_recordings.drop
            (add_icephys_recordings r1 st0 m1 e1 t1 k1
              c1).1.icephys_simultaneous_recordings.length).flatten)) := by
  obtain ⟨new1, gs1, R1, S1, L1, F1, Q1⟩ := C7_grouping r1 st0 m1 e1 t1 k1 c1 h1
  obtain ⟨new2, gs2, R2, S2, L2, F2, Q2⟩ := C7_grouping r2
    (add_icephys_recordings r1 st0 m1 e1 t1 k1 c1).1 m2 e2 t2 k2 c2 h2
  rw [S2, S1, List.drop_left, List.drop_left]
  rw [F1, F2, R1]
  simp only [List.length_append]
  have hr := List.range'_append st0.intracellular_recordings.length new1.length
    new2.length 1
  simp only [one_mul] at hr
  rw [hr]
  exact List.pairwise_lt_range' _ _

theorem C4_witness :
    List.Pairwise (fun a b => a < b)
      ((((add_icephys_recordings sampleReader emptyNWB (some sampleMetadata) "voltage_clamp"
            "stype" [] "gzip").1.icephys_simultaneous_recordings.drop
            emptyNWB.icephys_simultaneous_recordings.length).flatten)
        ++ (((add_icephys_recordings sampleReader
              (add_icephys_recordings sampleReader emptyNWB (some sampleMetadata)
                "voltage_clamp" "stype" [] "gzip").1
              (some sampleMetadata) "voltage_clamp" "stype" [] "gzip").1.icephys_simultaneous_recordings.drop
            (add_icephys_recordings sampleReader emptyNWB (some sampleMetadata) "voltage_clamp"
              "stype" [] "gzip").1.icephys_simultaneous_recordings.length).flatten)) :=
  C4_index_monotonicity sampleReader sampleReader emptyNWB (some sampleMetadata)
    (some sampleMetadata) "voltage_clamp" "voltage_clamp" "stype" "stype" [] [] "gzip" "gzip"
    rfl rfl

/-! ## Default electrode synthesis (C6) and idempotence (C9) -/

theorem createElectrodes_all_fresh (defaults : List ElectrodeMeta) (d0 : ElectrodeMeta)
    (hd : defaults.head? = some d0) :
    ∀ (metas : List ElectrodeMeta) (st : NWBFile),
      (∀ m ∈ metas, ∃ nm ds dn, m.name = some nm ∧ m.description = some ds
          ∧ m.device_name = some dn ∧ (st.devices.map Device.name).contains dn = true
          ∧ nm ∉ st.icephys_electrodes.map Electrode.name) →
      metas.Pairwise (fun a b => a.name ≠ b.name) →
      (createElectrodes defaults metas st).2 = none
      ∧ (createElectrodes defaults metas st).1.icephys_electrodes
        = st.icephys_electrodes ++ metas.map (fun m =>
            { name := m.name.getD "", description := m.description.getD ""
              deviceName := m.device_name.getD "" })
      ∧ (createElectrodes defaults metas st).1.devices = st.devices := by
  intro metas
  induction metas with
  | nil =>
    intro st _ _
    exact ⟨rfl, by simp [createElectrodes], rfl⟩
  | cons m rest ih =>
    intro st hfresh hpw
    obtain ⟨nm, ds, dn, hnm, hds, hdn, hdev, hnotin⟩ := hfresh m (List.mem_cons_self m rest)
    rw [createElectrodes, hd]
    simp only [hnm, hds, hdn, Option.getD_some]
    rw [if_neg (by simpa using hnotin)]
    have hens : ensureDeviceFor dn st = st := by
      unfold ensureDeviceFor; rw [if_pos hdev]
    rw [hens, if_pos hdev]
    have hrest := ih { st with icephys_electrodes := st.icephys_electrodes ++
        [{ name := nm, description := ds, deviceName := dn }] }
      (by
        intro m' hm'
        obtain ⟨nm', ds', dn', hnm', hds', hdn', hdev', hnotin'⟩ :=
          hfresh m' (List.mem_cons_of_mem m hm')
        refine ⟨nm', ds', dn', hnm', hds', hdn', hdev', ?_⟩
        simp only [List.map_append, List.mem_append]
        rintro (hc | hc)
        · exact hnotin' hc
        · simp at hc
          have := (List.pairwise_cons.mp hpw).1 m' hm'
          rw [hnm, hnm', hc] at this
          exact this rfl)
      (List.pairwise_cons.mp hpw).2
    refine ⟨hrest.1, ?_, hrest.2.2⟩
    rw [hrest.2.1]
    simp [hnm, hds, hdn]

theorem defaultNames_ne (i j : Nat) (hij : i ≠ j) :
    ("icephys_electrode_" ++ Nat.repr i) ≠ ("icephys_electrode_" ++ Nat.repr j) := by
  intro h
  exact hij (natRepr_injective (string_append_right_injective "icephys_electrode_" h))


theorem entriesOfDicts_noNonDict (ds : List ElectrodeMeta) :
    (ds.map ElectrodeEntry.dictEntry).any isNonDict = false := by
  induction ds with
  | nil => rfl
  | cons a l ihl => simp [isNonDict, ihl]

theorem entriesOfDicts_filterMap (ds : List ElectrodeMeta) :
    (ds.map ElectrodeEntry.dictEntry).filterMap entryMeta = ds := by
  induction ds with
  | nil => rfl
  | cons a l ihl => simp [entryMeta, ihl]

theorem electrodeEntries_none (ds : List ElectrodeMeta) :
    electrodeEntries none ds = ds.map ElectrodeEntry.dictEntry := rfl

/-- C6: on a container with no devices and no electrodes, a metadata-free
call of `add_icephys_electrode` succeeds, creates exactly one (default)
device, and creates one electrode per reader signal channel, named
`icephys_electrode_<i>` in channel order, each linked to that single
device. -/
theorem C6_default_electrodes (neo_reader : NeoReader) (st : NWBFile)
    (hdev : st.devices = []) (helec : st.icephys_electrodes = []) :
    (add_icephys_electrode neo_reader st none).2 = none
    ∧ (add_icephys_electrode neo_reader st none).1.devices = [{ name := "Device" }]
    ∧ (add_icephys_electrode neo_reader st none).1.icephys_electrodes
      = (List.range neo_reader.signal_channels.length).map (fun i =>
          { name := "icephys_electrode_" ++ Nat.repr i
            description := "no description"
            deviceName := "Device" }) := by
  have h1 : add_device_from_metadata
      { st with warnings := st.warnings ++
          ["When adding Icephys Electrode, no Devices were found on nwbfile. Creating a Device now..."] }
      none
      = { st with
          devices := [{ name := "Device" }],
          warnings := st.warnings ++
            ["When adding Icephys Electrode, no Devices were found on nwbfile. Creating a Device now..."] } := by
    unfold add_device_from_metadata deviceNameFromMetadata
    rw [if_neg (by simp [hdev])]
    simp [hdev]
  have h2 : add_icephys_electrode neo_reader st none
      = createElectrodes
          (defaultElectrodeMeta neo_reader
            { st with
              devices := [{ name := "Device" }],
              warnings := st.warnings ++
                ["When adding Icephys Electrode, no Devices were found on nwbfile. Creating a Device now..."] })
          (defaultElectrodeMeta neo_reader
            { st with
              devices := [{ name := "Device" }],
              warnings := st.warnings ++
                ["When adding Icephys Electrode, no Devices were found on nwbfile. Creating a Device now..."] })
          { st with
            devices := [{ name := "Device" }],
            warnings := st.warnings ++
              ["When adding Icephys Electrode, no Devices were found on nwbfile. Creating a Device now..."] } := by
    simp only [add_icephys_electrode]
    rw [electrodeEntries_none, entriesOfDicts_noNonDict]
    simp only [Bool.false_eq_true, if_false]
    rw [entriesOfDicts_filterMap]
    rw [if_pos (by simp [hdev]), h1]
  rw [h2]
  rcases hN : neo_reader.signal_channels.length with _ | k
  · have hdefs : defaultElectrodeMeta neo_reader
        { st with
          devices := [{ name := "Device" }],
          warnings := st.warnings ++
            ["When adding Icephys Electrode, no Devices were found on nwbfile. Creating a Device now..."] }
        = [] := by
      simp [defaultElectrodeMeta, hN]
    rw [hdefs]
    refine ⟨rfl, rfl, ?_⟩
    simp [createElectrodes, helec]
  · rcases hh : (defaultElectrodeMeta neo_reader
        { st with
          devices := [{ name := "Device" }],
          warnings := st.warnings ++
            ["When adding Icephys Electrode, no Devices were found on nwbfile. Creating a Device now..."] }).head?
      with _ | d0
    · exfalso
      have hnil := List.head?_eq_none_iff.mp hh
      simp only [defaultElectrodeMeta] at hnil
      simp [hN] at hnil
    · obtain ⟨hsucc, helecs, hdevs⟩ := createElectrodes_all_fresh
        (defaultElectrodeMeta neo_reader
          { st with
            devices := [{ name := "Device" }],
            warnings := st.warnings ++
              ["When adding Icephys Electrode, no Devices were found on nwbfile. Creating a Device now..."] })
        d0 hh
        (defaultElectrodeMeta neo_reader
          { st with
            devices := [{ name := "Device" }],
            warnings := st.warnings ++
              ["When adding Icephys Electrode, no Devices were found on nwbfile. Creating a Device now..."] })
        { st with
          devices := [{ name := "Device" }],
          warnings := st.warnings ++
            ["When adding Icephys Electrode, no Devices were found on nwbfile. Creating a Device now..."] }
        (by
          intro m hm
          simp only [defaultElectrodeMeta] at hm
          obtain ⟨i, hi, rfl⟩ := List.mem_map.mp hm
          refine ⟨"icephys_electrode_" ++ Nat.repr i, "no description", "Device", rfl, rfl, ?_, ?_, ?_⟩
          · simp
          · simp
          · simp [helec])
        (by
          simp only [defaultElectrodeMeta]
          rw [List.pairwise_map]
          refine (List.pairwise_lt_range _).imp ?_
          intro a b hab
          simp only [ne_eq, Option.some.injEq]
          exact fun hc => defaultNames_ne a b (Nat.ne_of_lt hab) hc)
      refine ⟨hsucc, by rw [hdevs], ?_⟩
      rw [helecs]
      simp only [helec]
      simp only [defaultElectrodeMeta]
      rw [List.map_map]
      simp [hN]

theorem C6_witness :
    (add_icephys_electrode sampleReader2 emptyNWB none).2 = none
    ∧ (add_icephys_electrode sampleReader2 emptyNWB none).1.devices = [{ name := "Device" }]
    ∧ (add_icephys_electrode sampleReader2 emptyNWB none).1.icephys_electrodes
      = (List.range sampleReader2.signal_channels.length).map (fun i =>
          { name := "icephys_electrode_" ++ Nat.repr i
            description := "no description"
            deviceName := "Device" }) :=
  C6_default_electrodes sampleReader2 emptyNWB rfl rfl

/-! ## Idempotence of electrode creation (C9) -/

theorem add_icephys_electrode_eq (neo_reader : NeoReader) (st : NWBFile)
    (metadata : Option Metadata) :
    add_icephys_electrode neo_reader st metadata =
      (let s := ensureAnyDevice st metadata
       let defaults := defaultElectrodeMeta neo_reader s
       let entries := electrodeEntries metadata defaults
       if entries.any isNonDict then
         (s, some "AssertionError: Expected metadata to hold a list of dictionaries")
       else
         createElectrodes defaults (entries.filterMap entryMeta) s) := rfl

theorem ensureAnyDevice_ne_nil (st : NWBFile) (metadata : Option Metadata) :
    (ensureAnyDevice st metadata).devices ≠ [] := by
  unfold ensureAnyDevice
  split
  · exact add_device_from_metadata_ne_nil _ metadata
  · rename_i h
    intro hnil
    exact h (by rw [hnil]; rfl)

theorem ensureAnyDevice_noop (s : NWBFile) (metadata : Option Metadata)
    (h : s.devices ≠ []) : ensureAnyDevice s metadata = s := by
  unfold ensureAnyDevice
  rw [if_neg (by simpa using h)]

theorem createElectrodes_devices_prefix (defaults metas : List ElectrodeMeta) (st : NWBFile) :
    ∃ l, (createElectrodes defaults metas st).1.devices = st.devices ++ l :=
  (createElectrodes_step defaults metas st).2.2.2.2.2

theorem createElectrodes_names_mono (defaults metas : List ElectrodeMeta) (st : NWBFile)
    (nm : String) (h : nm ∈ st.icephys_electrodes.map Electrode.name) :
    nm ∈ (createElectrodes defaults metas st).1.icephys_electrodes.map Electrode.name := by
  obtain ⟨es, hes⟩ := (createElectrodes_step defaults metas st).2.2.2.2.1
  rw [hes, List.map_append]
  exact List.mem_append_left _ h

theorem createElectrodes_nil_defaults (metas : List ElectrodeMeta) (st : NWBFile) :
    (createElectrodes [] metas st).1 = st := by
  cases metas with
  | nil => rfl
  | cons m rest => rfl

theorem map_name_headD_append (xs l : List Device) (h : xs ≠ []) :
    ((((xs ++ l).map Device.name).headD "")) = (((xs.map Device.name).headD "")) := by
  obtain ⟨a, t, rfl⟩ := List.exists_cons_of_ne_nil h
  rfl

theorem defaultElectrodeMeta_congr (neo_reader : NeoReader) (s1 s2 : NWBFile)
    (h : (((s1.devices.map Device.name).headD "")) = (((s2.devices.map Device.name).headD ""))) :
    defaultElectrodeMeta neo_reader s1 = defaultElectrodeMeta neo_reader s2 := by
  unfold defaultElectrodeMeta
  rw [h]

theorem add_device_from_metadata_mem (st : NWBFile) (metadata : Option Metadata) :
    deviceNameFromMetadata metadata
      ∈ (add_device_from_metadata st metadata).devices.map Device.name := by
  unfold add_device_from_metadata
  split
  · rename_i hc
    simpa using hc
  · simp

theorem add_device_from_metadata_noop (st : NWBFile) (metadata : Option Metadata)
    (h : ((st.devices.map Device.name).contains (deviceNameFromMetadata metadata)) = true) :
    add_device_from_metadata st metadata = st := by
  unfold add_device_from_metadata
  rw [if_pos h]

theorem deviceNameFromMetadata_ecephys (dn : String) :
    deviceNameFromMetadata
      (some { Icephys := none,
              Ecephys := some { Device := some [dn], Electrodes := none,
                                Sessions := none } })
      = "Device" := rfl

theorem ensureDeviceFor_electrodes (dn : String) (st : NWBFile) :
    (ensureDeviceFor dn st).icephys_electrodes = st.icephys_electrodes := by
  unfold ensureDeviceFor
  split
  · rfl
  · exact add_device_from_metadata_electrodes st _

theorem ensureDeviceFor_devMem (dn : String) (st : NWBFile)
    (hst : ((st.devices.map Device.name).contains dn) = false) :
    "Device" ∈ (ensureDeviceFor dn st).devices.map Device.name := by
  unfold ensureDeviceFor
  rw [if_neg (by rw [hst]; exact Bool.false_ne_true)]
  have h1 := add_device_from_metadata_mem st
    (some { Icephys := none,
            Ecephys := some { Device := some [dn], Electrodes := none, Sessions := none } })
  rw [deviceNameFromMetadata_ecephys] at h1
  exact h1

theorem ensureDeviceFor_warnOnly (dn : String) (s : NWBFile)
    (hc : ((s.devices.map Device.name).contains dn) = false)
    (hD : ((s.devices.map Device.name).contains "Device") = true) :
    ensureDeviceFor dn s
      = { s with warnings := s.warnings ++
          ["Device " ++ dn ++
            " not detected in attempted link to icephys electrode. Automatically generating."] } := by
  unfold ensureDeviceFor
  rw [if_neg (by rw [hc]; exact Bool.false_ne_true)]
  rw [add_device_from_metadata_noop s _ (by rw [deviceNameFromMetadata_ecephys]; exact hD)]

theorem ensureDeviceFor_again (dn : String) (st : NWBFile)
    (h : (((ensureDeviceFor dn st).devices.map Device.name).contains dn) = false) :
    (ensureDeviceFor dn (ensureDeviceFor dn st)).devices = (ensureDeviceFor dn st).devices
    ∧ (ensureDeviceFor dn (ensureDeviceFor dn st)).icephys_electrodes
      = (ensureDeviceFor dn st).icephys_electrodes := by
  have hst : ((st.devices.map Device.name).contains dn) = false := by
    cases hc : ((st.devices.map Device.name).contains dn) with
    | false => rfl
    | true =>
      have he : ensureDeviceFor dn st = st := by
        unfold ensureDeviceFor
        rw [if_pos hc]
      rw [he, hc] at h
      exact absurd h (by decide)
  have hD : (((ensureDeviceFor dn st).devices.map Device.name).contains "Device") = true := by
    simpa using ensureDeviceFor_devMem dn st hst
  rw [ensureDeviceFor_warnOnly dn (ensureDeviceFor dn st) h hD]
  exact ⟨rfl, rfl⟩

theorem createElectrodes_cons (defaults : List ElectrodeMeta) (d0 : ElectrodeMeta)
    (hd : defaults.head? = some d0) (m : ElectrodeMeta) (rest : List ElectrodeMeta)
    (st : NWBFile) :
    createElectrodes defaults (m :: rest) st =
      if (st.icephys_electrodes.map Electrode.name).contains (m.name.getD (d0.name.getD "")) then
        createElectrodes defaults rest st
      else
        if ((ensureDeviceFor (m.device_name.getD (d0.device_name.getD "")) st).devices.map
            Device.name).contains (m.device_name.getD (d0.device_name.getD "")) then
          createElectrodes defaults rest
            { ensureDeviceFor (m.device_name.getD (d0.device_name.getD "")) st with
              icephys_electrodes :=
                (ensureDeviceFor (m.device_name.getD (d0.device_name.getD ""))
                    st).icephys_electrodes ++
                [{ name := m.name.getD (d0.name.getD "")
                   description := m.description.getD (d0.description.getD "")
                   deviceName := m.device_name.getD (d0.device_name.getD "") }] }
        else
          (ensureDeviceFor (m.device_name.getD (d0.device_name.getD "")) st,
            some ("KeyError: " ++ m.device_name.getD (d0.device_name.getD ""))) := by
  rw [createElectrodes, hd]

theorem createElectrodes_idem (defaults : List ElectrodeMeta) (d0 : ElectrodeMeta)
    (hd : defaults.head? = some d0) :
    ∀ (metas : List ElectrodeMeta) (st : NWBFile),
      (createElectrodes defaults metas
          (createElectrodes defaults metas st).1).1.icephys_electrodes
      = (createElectrodes defaults metas st).1.icephys_electrodes := by
  intro metas
  induction metas with
  | nil => intro st; rfl
  | cons m rest ih =>
    intro st
    by_cases hskip : ((st.icephys_electrodes.map Electrode.name).contains
        (m.name.getD (d0.name.getD ""))) = true
    · have hfirst : createElectrodes defaults (m :: rest) st
          = createElectrodes defaults rest st := by
        rw [createElectrodes_cons defaults d0 hd, if_pos hskip]
      have hskip2 : (((createElectrodes defaults rest st).1.icephys_electrodes.map
          Electrode.name).contains (m.name.getD (d0.name.getD ""))) = true := by
        have hm := createElectrodes_names_mono defaults rest st
          (m.name.getD (d0.name.getD "")) (by simpa using hskip)
        simpa using hm
      rw [hfirst, createElectrodes_cons defaults d0 hd, if_pos hskip2]
      exact ih st
    · by_cases hdev : ((((ensureDeviceFor (m.device_name.getD (d0.device_name.getD ""))
          st).devices.map Device.name).contains
          (m.device_name.getD (d0.device_name.getD "")))) = true
      · have hfirst : createElectrodes defaults (m :: rest) st
            = createElectrodes defaults rest
                { ensureDeviceFor (m.device_name.getD (d0.device_name.getD "")) st with
                  icephys_electrodes :=
                    (ensureDeviceFor (m.device_name.getD (d0.device_name.getD ""))
                        st).icephys_electrodes ++
                    [{ name := m.name.getD (d0.name.getD "")
                       description := m.description.getD (d0.description.getD "")
                       deviceName := m.device_name.getD (d0.device_name.getD "") }] } := by
          rw [createElectrodes_cons defaults d0 hd, if_neg hskip, if_pos hdev]
        have hskip2 : ((((createElectrodes defaults rest
              { ensureDeviceFor (m.device_name.getD (d0.device_name.getD "")) st with
                icephys_electrodes :=
                  (ensureDeviceFor (m.device_name.getD (d0.device_name.getD ""))
                      st).icephys_electrodes ++
                  [{ name := m.name.getD (d0.name.getD "")
                     description := m.description.getD (d0.description.getD "")
                     deviceName := m.device_name.getD
                       (d0.device_name.getD "") }] }).1.icephys_electrodes.map
              Electrode.name).contains (m.name.getD (d0.name.getD "")))) = true := by
          have hm := createElectrodes_names_mono defaults rest
            { ensureDeviceFor (m.device_name.getD (d0.device_name.getD "")) st with
              icephys_electrodes :=
                (ensureDeviceFor (m.device_name.getD (d0.device_name.getD ""))
                    st).icephys_electrodes ++
                [{ name := m.name.getD (d0.name.getD "")
                   description := m.description.getD (d0.description.getD "")
                   deviceName := m.device_name.getD (d0.device_name.getD "") }] }
            (m.name.getD (d0.name.getD "")) (by simp)
          simpa using hm
        rw [hfirst, createElectrodes_cons defaults d0 hd, if_pos hskip2]
        exact ih _
      · have hdevF : ((((ensureDeviceFor (m.device_name.getD (d0.device_name.getD ""))
            st).devices.map Device.name).contains
            (m.device_name.getD (d0.device_name.getD "")))) = false := by
          simpa using hdev
        have hfirst : createElectrodes defaults (m :: rest) st
            = (ensureDeviceFor (m.device_name.getD (d0.device_name.getD "")) st,
               some ("KeyError: " ++ m.device_name.getD (d0.device_name.getD ""))) := by
          rw [createElectrodes_cons defaults d0 hd, if_neg hskip, if_neg hdev]
        obtain ⟨hdevEq, helEq⟩ :=
          ensureDeviceFor_again (m.device_name.getD (d0.device_name.getD "")) st hdevF
        have hskip2 : ¬ ((((ensureDeviceFor (m.device_name.getD (d0.device_name.getD ""))
              st).icephys_electrodes.map Electrode.name).contains
              (m.name.getD (d0.name.getD ""))) = true) := by
          rw [ensureDeviceFor_electrodes]
          exact hskip
        have hdev2 : ¬ ((((ensureDeviceFor (m.device_name.getD (d0.device_name.getD ""))
              (ensureDeviceFor (m.device_name.getD (d0.device_name.getD ""))
                st)).devices.map Device.name).contains
              (m.device_name.getD (d0.device_name.getD ""))) = true) := by
          rw [hdevEq]
          exact hdev
        simp only [hfirst]
        rw [createElectrodes_cons defaults d0 hd, if_neg hskip2, if_neg hdev2]
        exact helEq

/-- C9: electrode creation in `add_icephys_electrode` is idempotent by name.
Requesting an electrode whose name already exists in the container's
electrode table is a no-op, so calling `add_icephys_electrode` a second
time with the same reader and metadata leaves the electrode table
unchanged — on the success path every entry is skipped, and on every
error path (assertion, missing default, missing device) the table is
never touched. -/
theorem C9_electrode_idempotence (neo_reader : NeoReader) (st : NWBFile)
    (metadata : Option Metadata) :
    (add_icephys_electrode neo_reader (add_icephys_electrode neo_reader st metadata).1
        metadata).1.icephys_electrodes
    = (add_icephys_electrode neo_reader st metadata).1.icephys_electrodes := by
  cases hA : (electrodeEntries metadata
      (defaultElectrodeMeta neo_reader (ensureAnyDevice st metadata))).any isNonDict with
  | true =>
    have hfirst : add_icephys_electrode neo_reader st metadata
        = (ensureAnyDevice st metadata,
           some "AssertionError: Expected metadata to hold a list of dictionaries") := by
      simp only [add_icephys_electrode_eq]
      simp [hA]
    have hne : (add_icephys_electrode neo_reader st metadata).1.devices ≠ [] := by
      rw [hfirst]
      exact ensureAnyDevice_ne_nil st metadata
    have hhead : ((((add_icephys_electrode neo_reader st metadata).1.devices.map
          Device.name).headD ""))
        = ((((ensureAnyDevice st metadata).devices.map Device.name).headD "")) := by
      rw [hfirst]
    have hsecond : ∀ s : NWBFile, s.devices ≠ [] →
        (((s.devices.map Device.name).headD ""))
          = ((((ensureAnyDevice st metadata).devices.map Device.name).headD "")) →
        add_icephys_electrode neo_reader s metadata
          = (s, some "AssertionError: Expected metadata to hold a list of dictionaries") := by
      intro s hsne hshead
      simp only [add_icephys_electrode_eq]
      rw [ensureAnyDevice_noop s metadata hsne]
      rw [defaultElectrodeMeta_congr neo_reader s (ensureAnyDevice st metadata) hshead]
      simp [hA]
    rw [hsecond (add_icephys_electrode neo_reader st metadata).1 hne hhead]
  | false =>
    have hfirst : add_icephys_electrode neo_reader st metadata
        = createElectrodes (defaultElectrodeMeta neo_reader (ensureAnyDevice st metadata))
            ((electrodeEntries metadata (defaultElectrodeMeta neo_reader
                (ensureAnyDevice st metadata))).filterMap entryMeta)
            (ensureAnyDevice st metadata) := by
      simp only [add_icephys_electrode_eq]
      simp [hA]
    obtain ⟨l, hl⟩ := createElectrodes_devices_prefix
      (defaultElectrodeMeta neo_reader (ensureAnyDevice st metadata))
      ((electrodeEntries metadata (defaultElectrodeMeta neo_reader
          (ensureAnyDevice st metadata))).filterMap entryMeta)
      (ensureAnyDevice st metadata)
    have hne : (add_icephys_electrode neo_reader st metadata).1.devices ≠ [] := by
      rw [hfirst, hl]
      intro hc
      exact ensureAnyDevice_ne_nil st metadata (List.append_eq_nil.mp hc).1
    have hhead : ((((add_icephys_electrode neo_reader st metadata).1.devices.map
          Device.name).headD ""))
        = ((((ensureAnyDevice st metadata).devices.map Device.name).headD "")) := by
      rw [hfirst, hl]
      exact map_name_headD_append _ l (ensureAnyDevice_ne_nil st metadata)
    have hsecond : ∀ s : NWBFile, s.devices ≠ [] →
        (((s.devices.map Device.name).headD ""))
          = ((((ensureAnyDevice st metadata).devices.map Device.name).headD "")) →
        add_icephys_electrode neo_reader s metadata
          = createElectrodes (defaultElectrodeMeta neo_reader (ensureAnyDevice st metadata))
              ((electrodeEntries metadata (defaultElectrodeMeta neo_reader
                  (ensureAnyDevice st metadata))).filterMap entryMeta) s := by
      intro s hsne hshead
      simp only [add_icephys_electrode_eq]
      rw [ensureAnyDevice_noop s metadata hsne]
      rw [defaultElectrodeMeta_congr neo_reader s (ensureAnyDevice st metadata) hshead]
      simp [hA]
    rw [hsecond (add_icephys_electrode neo_reader st metadata).1 hne hhead, hfirst]
    rcases hD : defaultElectrodeMeta neo_reader (ensureAnyDevice st metadata) with _ | ⟨d1, ds⟩
    · exact congrArg NWBFile.icephys_electrodes (createElectrodes_nil_defaults _ _)
    · exact createElectrodes_idem (d1 :: ds) d1 rfl _ _
